import Mathlib

/-!
Verification of the Metacognitive Engine repository.

Shallow embedding of the attention model (`src/engine/models/attention_state.py`),
the emotional model (`src/engine/models/emotional_state.py`), the cognitive cycle
controller (`src/engine/engine.py`) and the response generator
(`src/engine/processors/response_generator.py`), with theorems settling the
frozen claims about them.

Conventions: Python floats are embedded as `ℚ`; wall-clock time is passed
explicitly as a rational `now` (seconds); `datetime` fields become rational
timestamps.  Python strings are embedded as `List Char`.
-/

namespace Metacog

/-- Priority levels for attention allocation (`AttentionPriority`). -/
inductive AttentionPriority
  | critical
  | high
  | medium
  | low
  | minimal
deriving DecidableEq, Repr

/-- A single focus of attention (`AttentionFocus`).  The `attention_type`,
`created_at` and `metadata` fields play no role in any claim and are omitted;
`focus_id` is embedded as a natural number, timestamps as rationals. -/
structure AttentionFocus where
  focus_id : ℕ
  weight : ℚ
  priority : AttentionPriority
  duration : ℚ
  last_updated : ℚ
deriving DecidableEq, Repr

/-- `AttentionFocus.update_weight`: clamp the new weight into `[0,1]` and stamp
the update time. -/
def updateWeight (f : AttentionFocus) (new_weight : ℚ) (now : ℚ) : AttentionFocus :=
  { f with weight := max 0 (min 1 new_weight), last_updated := now }

/-- The priority-weight table used by `AttentionFocus.get_relevance_score`. -/
def priorityWeight : AttentionPriority → ℚ
  | .critical => 1
  | .high => 8/10
  | .medium => 6/10
  | .low => 4/10
  | .minimal => 2/10

/-- `AttentionFocus.get_relevance_score`: `min 1 (0.4·weight + 0.4·priorityWeight
+ 0.2·timeFactor)` with `timeFactor = max 0.1 (1 − secondsSinceLastUpdate/3600)`. -/
def getRelevanceScore (f : AttentionFocus) (now : ℚ) : ℚ :=
  let time_factor : ℚ := max (1/10) (1 - (now - f.last_updated) / 3600)
  min 1 (f.weight * (4/10) + priorityWeight f.priority * (4/10) + time_factor * (2/10))

/-- `AttentionFocus.is_expired`: the focus has been active longer than
`max_duration`. -/
def isExpired (f : AttentionFocus) (max_duration : ℚ) : Bool :=
  decide (max_duration < f.duration)

/-- Current state of the attention system (`AttentionState`).  `created_at` is
omitted; everything else is kept. -/
structure AttentionState where
  current_focuses : List AttentionFocus
  attention_history : List AttentionFocus
  total_attention_capacity : ℚ
  current_attention_usage : ℚ
  attention_threshold : ℚ
  max_concurrent_focuses : ℕ
  last_updated : ℚ
deriving DecidableEq, Repr

/-- The dataclass defaults of `AttentionState`: empty pool, capacity `1.0`,
threshold `0.1`, at most `5` concurrent focuses. -/
def freshState : AttentionState :=
  { current_focuses := []
    attention_history := []
    total_attention_capacity := 1
    current_attention_usage := 0
    attention_threshold := 1/10
    max_concurrent_focuses := 5
    last_updated := 0 }

/-- Remove the first list element whose `focus_id` matches, returning it and the
remaining list (the search loop inside `AttentionState.remove_focus`). -/
def removeFirst (fid : ℕ) : List AttentionFocus → Option (AttentionFocus × List AttentionFocus)
  | [] => none
  | f :: rest =>
    if f.focus_id = fid then some (f, rest)
    else (removeFirst fid rest).map (fun p => (p.1, f :: p.2))

/-- `AttentionState.remove_focus`: pop the first focus with the given id,
subtract its weight from the usage and append it to the history; return `false`
and leave the state untouched when no focus matches. -/
def removeFocus (s : AttentionState) (fid : ℕ) (now : ℚ) : AttentionState × Bool :=
  match removeFirst fid s.current_focuses with
  | none => (s, false)
  | some (f, rest) =>
    ({ s with current_focuses := rest
              current_attention_usage := s.current_attention_usage - f.weight
              attention_history := s.attention_history ++ [f]
              last_updated := now }, true)

/-- Find the first focus with the given id and rewrite its weight through
`updateWeight`, returning the old (unclamped) weight and the new list (the
search loop inside `AttentionState.update_focus_weight`). -/
def updateFirst (fid : ℕ) (new_weight now : ℚ) :
    List AttentionFocus → Option (ℚ × List AttentionFocus)
  | [] => none
  | f :: rest =>
    if f.focus_id = fid then some (f.weight, updateWeight f new_weight now :: rest)
    else (updateFirst fid new_weight now rest).map (fun p => (p.1, f :: p.2))

/-- `AttentionState.update_focus_weight`: the matched focus clamps the new
weight via `updateWeight`, but the usage is adjusted by the *unclamped* delta
`new_weight − old_weight`, exactly as the Python source does. -/
def updateFocusWeight (s : AttentionState) (fid : ℕ) (new_weight now : ℚ) :
    AttentionState × Bool :=
  match updateFirst fid new_weight now s.current_focuses with
  | none => (s, false)
  | some (old_weight, l) =>
    ({ s with current_focuses := l
              current_attention_usage := s.current_attention_usage + (new_weight - old_weight)
              last_updated := now }, true)

/-- The eviction key of `AttentionState._remove_lowest_priority_focus`:
`(priority_order, relevance)` compared lexicographically, with
`priority_order` mapping MINIMAL ↦ 0 … CRITICAL ↦ 4. -/
def priorityOrder : AttentionPriority → ℕ
  | .minimal => 0
  | .low => 1
  | .medium => 2
  | .high => 3
  | .critical => 4

/-- Strict lexicographic order on eviction keys. -/
def keyLt (a b : ℕ × ℚ) : Prop := a.1 < b.1 ∨ (a.1 = b.1 ∧ a.2 < b.2)

instance (a b : ℕ × ℚ) : Decidable (keyLt a b) := instDecidableOr

/-- The eviction key of a focus. -/
def focusKey (f : AttentionFocus) (now : ℚ) : ℕ × ℚ :=
  (priorityOrder f.priority, getRelevanceScore f now)

/-- Python's `min` over a non-empty list with the eviction key: the first
element attaining the minimal key wins ties. -/
def pickLowest (now : ℚ) : AttentionFocus → List AttentionFocus → AttentionFocus
  | best, [] => best
  | best, g :: rest =>
    pickLowest now (if keyLt (focusKey g now) (focusKey best now) then g else best) rest

/-- `AttentionState._remove_lowest_priority_focus`: do nothing on an empty
pool, otherwise remove (by id) the focus minimizing `(priority, relevance)`. -/
def removeLowestPriorityFocus (s : AttentionState) (now : ℚ) : AttentionState :=
  match s.current_focuses with
  | [] => s
  | f :: rest => (removeFocus s (pickLowest now f rest).focus_id now).1

/-- The per-focus step of `AttentionState._rebalance_attention`: shrink the
focus proportionally to its reducible share, clamped below at the threshold;
return the updated focus together with the usage decrement `weight − new_weight`
(computed before `updateWeight` clamps, as in the source). -/
def rebalanceFocus (threshold reduction_needed total_reducible now : ℚ)
    (f : AttentionFocus) : AttentionFocus × ℚ :=
  let reducible_weight := max 0 (f.weight - threshold)
  if 0 < reducible_weight then
    let reduction_ratio := reducible_weight / total_reducible
    let weight_reduction := reduction_needed * reduction_ratio
    let new_weight := max threshold (f.weight - weight_reduction)
    (updateWeight f new_weight now, f.weight - new_weight)
  else (f, 0)

/-- `AttentionState._rebalance_attention`: no-op on an empty pool, when no
reduction is needed, or when no weight is reducible; otherwise shrink every
focus with reducible weight and lower the usage by the freed amount. -/
def rebalanceAttention (s : AttentionState) (required_attention now : ℚ) : AttentionState :=
  if s.current_focuses.isEmpty then s
  else
    let available_capacity := s.total_attention_capacity - s.current_attention_usage
    let reduction_needed := required_attention - available_capacity
    if reduction_needed ≤ 0 then s
    else
      let total_reducible_weight :=
        (s.current_focuses.map (fun f => max 0 (f.weight - s.attention_threshold))).sum
      if total_reducible_weight ≤ 0 then s
      else
        let pairs := s.current_focuses.map
          (rebalanceFocus s.attention_threshold reduction_needed total_reducible_weight now)
        { s with current_focuses := pairs.map Prod.fst
                 current_attention_usage :=
                   s.current_attention_usage - (pairs.map Prod.snd).sum }

/-- `AttentionState.add_focus`: evict the lowest-priority focus when the pool
is full, rebalance when the new weight would exceed the capacity, then append
the focus and add its weight to the usage (the method always returns `True`). -/
def addFocus (s : AttentionState) (f : AttentionFocus) (now : ℚ) : AttentionState :=
  let s1 :=
    if s.max_concurrent_focuses ≤ s.current_focuses.length
    then removeLowestPriorityFocus s now else s
  let s2 :=
    if s1.total_attention_capacity < s1.current_attention_usage + f.weight
    then rebalanceAttention s1 f.weight now else s1
  { s2 with current_focuses := s2.current_focuses ++ [f]
            current_attention_usage := s2.current_attention_usage + f.weight
            last_updated := now }

/-- `AttentionState.cleanup_expired_focuses`: collect the expired focuses,
remove each by id, and return how many were collected. -/
def cleanupExpiredFocuses (s : AttentionState) (max_duration now : ℚ) : AttentionState × ℕ :=
  let expired := s.current_focuses.filter (fun f => isExpired f max_duration)
  (expired.foldl (fun st f => (removeFocus st f.focus_id now).1) s, expired.length)

/-- Sum of the weights of the current focuses. -/
def weightSum (s : AttentionState) : ℚ :=
  (s.current_focuses.map AttentionFocus.weight).sum

/-! ### Order lemmas for the eviction key -/

theorem keyLt_irrefl (a : ℕ × ℚ) : ¬ keyLt a a := by
  simp [keyLt]

theorem keyLt_asymm {a b : ℕ × ℚ} (h : keyLt a b) : ¬ keyLt b a := by
  rcases h with h | ⟨h1, h2⟩ <;> rintro (h' | ⟨h1', h2'⟩) <;> first | omega | linarith

theorem not_keyLt_trans {a b c : ℕ × ℚ} (h1 : ¬ keyLt b a) (h2 : ¬ keyLt c b) :
    ¬ keyLt c a := by
  unfold keyLt at *
  push_neg at h1 h2
  rintro (h | ⟨hEq, hLt⟩)
  · omega
  · have hba : b.1 = a.1 := by omega
    have hcb : c.1 = b.1 := by omega
    have := h1.2 hba
    have := h2.2 hcb
    linarith

/-! ### Lemmas about the search loops -/

theorem removeFirst_eq_none {fid : ℕ} :
    ∀ {l : List AttentionFocus}, (∀ g ∈ l, g.focus_id ≠ fid) → removeFirst fid l = none := by
  intro l
  induction l with
  | nil => intro _; rfl
  | cons f rest ih =>
    intro h
    have hf := h f (List.mem_cons_self f rest)
    simp only [removeFirst, if_neg hf, ih (fun g hg => h g (List.mem_cons_of_mem f hg))]
    rfl

theorem updateFirst_eq_none {fid : ℕ} {nw now : ℚ} :
    ∀ {l : List AttentionFocus}, (∀ g ∈ l, g.focus_id ≠ fid) →
      updateFirst fid nw now l = none := by
  intro l
  induction l with
  | nil => intro _; rfl
  | cons f rest ih =>
    intro h
    have hf := h f (List.mem_cons_self f rest)
    simp only [updateFirst, if_neg hf, ih (fun g hg => h g (List.mem_cons_of_mem f hg))]
    rfl

theorem removeFirst_some_spec {fid : ℕ} :
    ∀ {l : List AttentionFocus} {g : AttentionFocus} {rest : List AttentionFocus},
      removeFirst fid l = some (g, rest) →
      g ∈ l ∧ g.focus_id = fid ∧ l.length = rest.length + 1 := by
  intro l
  induction l with
  | nil => intro g rest h; simp [removeFirst] at h
  | cons f t ih =>
    intro g rest h
    by_cases hf : f.focus_id = fid
    · simp only [removeFirst, if_pos hf, Option.some.injEq, Prod.mk.injEq] at h
      obtain ⟨hg, hrest⟩ := h
      subst hg; subst hrest
      exact ⟨List.mem_cons_self f t, hf, by simp⟩
    · simp only [removeFirst, if_neg hf, Option.map_eq_some'] at h
      obtain ⟨⟨g', rest'⟩, hrec, heq⟩ := h
      obtain ⟨hmem, hid, hlen⟩ := ih hrec
      simp only [Prod.mk.injEq] at heq
      obtain ⟨hg, hrest⟩ := heq
      subst hg; subst hrest
      exact ⟨List.mem_cons_of_mem f hmem, hid, by simp [hlen]⟩

theorem removeFirst_nodup {m : AttentionFocus} :
    ∀ {l : List AttentionFocus}, m ∈ l → (l.map AttentionFocus.focus_id).Nodup →
      ∃ rest, removeFirst m.focus_id l = some (m, rest) ∧ rest.length + 1 = l.length := by
  intro l
  induction l with
  | nil => intro hm; simp at hm
  | cons f t ih =>
    intro hm hn
    simp only [List.map_cons, List.nodup_cons] at hn
    by_cases hf : f.focus_id = m.focus_id
    · have hfm : f = m := by
        rcases List.mem_cons.mp hm with h | h
        · exact h.symm
        · exact absurd (hf ▸ List.mem_map_of_mem AttentionFocus.focus_id h) hn.1
      refine ⟨t, ?_, by simp⟩
      simp [removeFirst, hf, hfm]
    · have hmt : m ∈ t := by
        rcases List.mem_cons.mp hm with h | h
        · exact absurd (congrArg AttentionFocus.focus_id h.symm) hf
        · exact h
      obtain ⟨rest, hrec, hlen⟩ := ih hmt hn.2
      refine ⟨f :: rest, ?_, by simp [← hlen]⟩
      simp [removeFirst, hf, hrec]

/-! ### Lemmas about `pickLowest` -/

theorem pickLowest_mem (now : ℚ) :
    ∀ (l : List AttentionFocus) (best : AttentionFocus),
      pickLowest now best l ∈ best :: l := by
  intro l
  induction l with
  | nil => intro best; simp [pickLowest]
  | cons g rest ih =>
    intro best
    show pickLowest now (if keyLt (focusKey g now) (focusKey best now) then g else best) rest
        ∈ best :: g :: rest
    by_cases hk : keyLt (focusKey g now) (focusKey best now)
    · rw [if_pos hk]
      rcases List.mem_cons.mp (ih g) with h1 | h1
      · rw [h1]; exact List.mem_cons_of_mem _ (List.mem_cons_self _ _)
      · exact List.mem_cons_of_mem _ (List.mem_cons_of_mem _ h1)
    · rw [if_neg hk]
      rcases List.mem_cons.mp (ih best) with h1 | h1
      · rw [h1]; exact List.mem_cons_self _ _
      · exact List.mem_cons_of_mem _ (List.mem_cons_of_mem _ h1)

theorem pickLowest_min (now : ℚ) :
    ∀ (l : List AttentionFocus) (best g : AttentionFocus), g ∈ best :: l →
      ¬ keyLt (focusKey g now) (focusKey (pickLowest now best l) now) := by
  intro l
  induction l with
  | nil =>
    intro best g hg
    rcases List.mem_cons.mp hg with h1 | h1
    · rw [h1]; exact keyLt_irrefl _
    · simp at h1
  | cons x t ih =>
    intro best g hg
    show ¬ keyLt (focusKey g now)
        (focusKey (pickLowest now (if keyLt (focusKey x now) (focusKey best now) then x else best) t) now)
    by_cases hk : keyLt (focusKey x now) (focusKey best now)
    · rw [if_pos hk]
      have hxmin : ¬ keyLt (focusKey x now) (focusKey (pickLowest now x t) now) :=
        ih x x (List.mem_cons_self x t)
      rcases List.mem_cons.mp hg with h1 | h1
      · rw [h1]; exact not_keyLt_trans hxmin (keyLt_asymm hk)
      · rcases List.mem_cons.mp h1 with h2 | h2
        · rw [h2]; exact hxmin
        · exact ih x g (List.mem_cons_of_mem x h2)
    · rw [if_neg hk]
      have hbmin : ¬ keyLt (focusKey best now) (focusKey (pickLowest now best t) now) :=
        ih best best (List.mem_cons_self best t)
      rcases List.mem_cons.mp hg with h1 | h1
      · rw [h1]; exact hbmin
      · rcases List.mem_cons.mp h1 with h2 | h2
        · rw [h2]; exact not_keyLt_trans hbmin hk
        · exact ih best g (List.mem_cons_of_mem best h2)

theorem removeFirst_some_of_mem {fid : ℕ} :
    ∀ (l : List AttentionFocus), (∃ m ∈ l, m.focus_id = fid) →
      ∃ g rest, removeFirst fid l = some (g, rest) := by
  intro l
  induction l with
  | nil => rintro ⟨m, hm, _⟩; simp at hm
  | cons f t ih =>
    rintro ⟨m, hm, hid⟩
    by_cases hf : f.focus_id = fid
    · exact ⟨f, t, by simp [removeFirst, hf]⟩
    · have hmt : m ∈ t := by
        rcases List.mem_cons.mp hm with h1 | h1
        · exact absurd (h1 ▸ hid) hf
        · exact h1
      obtain ⟨g, rest, hrec⟩ := ih ⟨m, hmt, hid⟩
      exact ⟨g, f :: rest, by simp [removeFirst, hf, hrec]⟩

/-! ### Shape lemmas for the attention operations -/

theorem rebalance_length (s : AttentionState) (r now : ℚ) :
    (rebalanceAttention s r now).current_focuses.length = s.current_focuses.length := by
  simp only [rebalanceAttention]
  split_ifs <;> simp

theorem rebalance_history (s : AttentionState) (r now : ℚ) :
    (rebalanceAttention s r now).attention_history = s.attention_history := by
  simp only [rebalanceAttention]
  split_ifs <;> simp

theorem removeFocus_length_le (s : AttentionState) (fid : ℕ) (now : ℚ) :
    (removeFocus s fid now).1.current_focuses.length ≤ s.current_focuses.length := by
  unfold removeFocus
  cases hrf : removeFirst fid s.current_focuses with
  | none => simp
  | some p =>
    obtain ⟨g, rest⟩ := p
    have hspec := removeFirst_some_spec hrf
    simp only []
    omega

theorem removeLowest_length (s : AttentionState) (now : ℚ)
    (hne : s.current_focuses ≠ []) :
    (removeLowestPriorityFocus s now).current_focuses.length + 1 =
      s.current_focuses.length := by
  obtain ⟨x, t, heq⟩ := List.exists_cons_of_ne_nil hne
  have hm : pickLowest now x t ∈ s.current_focuses := heq ▸ pickLowest_mem now t x
  obtain ⟨g, rest, hrf⟩ :=
    removeFirst_some_of_mem s.current_focuses ⟨pickLowest now x t, hm, rfl⟩
  have hspec := removeFirst_some_spec hrf
  rw [heq] at hspec
  unfold removeLowestPriorityFocus removeFocus
  rw [heq]
  rw [heq] at hrf
  simp only [hrf]
  omega

/-- The full-pool eviction inside `add_focus`, assuming distinct focus ids: the
evicted element is exactly the key-minimal `pickLowest` and it lands at the end
of the history. -/
theorem removeLowest_full (s : AttentionState) (now : ℚ) {x : AttentionFocus}
    {t : List AttentionFocus} (heq : s.current_focuses = x :: t)
    (hnodup : (s.current_focuses.map AttentionFocus.focus_id).Nodup) :
    ∃ rest,
      removeLowestPriorityFocus s now =
        { s with current_focuses := rest
                 current_attention_usage :=
                   s.current_attention_usage - (pickLowest now x t).weight
                 attention_history := s.attention_history ++ [pickLowest now x t]
                 last_updated := now }
      ∧ rest.length + 1 = s.current_focuses.length := by
  have hm : pickLowest now x t ∈ s.current_focuses := heq ▸ pickLowest_mem now t x
  obtain ⟨rest, hrf, hlen⟩ := removeFirst_nodup hm hnodup
  refine ⟨rest, ?_, hlen⟩
  unfold removeLowestPriorityFocus removeFocus
  rw [heq]
  rw [heq] at hrf
  simp only [hrf]

theorem addFocus_length (s : AttentionState) (f : AttentionFocus) (now : ℚ) :
    (addFocus s f now).current_focuses.length =
      (if s.max_concurrent_focuses ≤ s.current_focuses.length
        then removeLowestPriorityFocus s now else s).current_focuses.length + 1 := by
  simp only [addFocus]
  split_ifs <;> simp [rebalance_length]

theorem addFocus_history (s : AttentionState) (f : AttentionFocus) (now : ℚ) :
    (addFocus s f now).attention_history =
      (if s.max_concurrent_focuses ≤ s.current_focuses.length
        then removeLowestPriorityFocus s now else s).attention_history := by
  simp only [addFocus]
  split_ifs <;> simp [rebalance_history]

/-- C5: starting from a state respecting the size bound, both `add_focus` and
`remove_focus` keep `current_focuses.length ≤ max_concurrent_focuses`; and when
the pool is exactly full (with pairwise distinct focus ids), `add_focus` evicts
precisely the focus minimizing the lexicographic key `(priority rank, relevance
score)`, appending it to `attention_history`, so the pool size stays at the
maximum. -/
theorem c5_pool_size_bounded (s : AttentionState) (f : AttentionFocus) (fid : ℕ) (now : ℚ)
    (hmax : 1 ≤ s.max_concurrent_focuses)
    (hlen : s.current_focuses.length ≤ s.max_concurrent_focuses) :
    (addFocus s f now).current_focuses.length ≤ s.max_concurrent_focuses
    ∧ (removeFocus s fid now).1.current_focuses.length ≤ s.max_concurrent_focuses
    ∧ (s.current_focuses.length = s.max_concurrent_focuses →
        (s.current_focuses.map AttentionFocus.focus_id).Nodup →
        ∃ m ∈ s.current_focuses,
          (∀ g ∈ s.current_focuses, ¬ keyLt (focusKey g now) (focusKey m now)) ∧
          (addFocus s f now).attention_history = s.attention_history ++ [m] ∧
          (addFocus s f now).current_focuses.length = s.max_concurrent_focuses) := by
  refine ⟨?_, ?_, ?_⟩
  · rw [addFocus_length]
    by_cases hfull : s.max_concurrent_focuses ≤ s.current_focuses.length
    · rw [if_pos hfull]
      have hEq : s.current_focuses.length = s.max_concurrent_focuses :=
        le_antisymm hlen hfull
      have hne : s.current_focuses ≠ [] := by
        intro h0; rw [h0] at hEq; simp at hEq; omega
      have := removeLowest_length s now hne
      omega
    · rw [if_neg hfull]; omega
  · have := removeFocus_length_le s fid now; omega
  · intro hfull hnodup
    have hne : s.current_focuses ≠ [] := by
      intro h0; rw [h0] at hfull; simp at hfull; omega
    obtain ⟨x, t, heq⟩ := List.exists_cons_of_ne_nil hne
    obtain ⟨rest, hrl, hrlen⟩ := removeLowest_full s now heq hnodup
    refine ⟨pickLowest now x t, heq ▸ pickLowest_mem now t x, ?_, ?_, ?_⟩
    · intro g hg
      rw [heq] at hg
      exact pickLowest_min now t x g hg
    · rw [addFocus_history, if_pos hfull.ge, hrl]
    · rw [addFocus_length, if_pos hfull.ge, hrl]
      simp only []
      omega

/-- A concrete full pool of five focuses with distinct ids, used as the C5
witness input. -/
def poolOfFive : AttentionState :=
  { current_focuses :=
      [⟨1, 1, .critical, 0, 0⟩, ⟨2, 1, .high, 0, 0⟩, ⟨3, 0, .medium, 0, 0⟩,
        ⟨4, 1, .low, 0, 0⟩, ⟨5, 1, .minimal, 0, 0⟩]
    attention_history := []
    total_attention_capacity := 1
    current_attention_usage := 4
    attention_threshold := 1/10
    max_concurrent_focuses := 5
    last_updated := 0 }

/-- Witness for C5 at a concrete input: a full five-focus pool. -/
theorem c5_pool_size_bounded_witness :
    (addFocus poolOfFive ⟨6, 0, .medium, 0, 0⟩ 0).current_focuses.length ≤ 5
    ∧ (removeFocus poolOfFive 9 0).1.current_focuses.length ≤ 5
    ∧ (poolOfFive.current_focuses.length = 5 →
        (poolOfFive.current_focuses.map AttentionFocus.focus_id).Nodup →
        ∃ m ∈ poolOfFive.current_focuses,
          (∀ g ∈ poolOfFive.current_focuses,
            ¬ keyLt (focusKey g 0) (focusKey m 0)) ∧
          (addFocus poolOfFive ⟨6, 0, .medium, 0, 0⟩ 0).attention_history =
            poolOfFive.attention_history ++ [m] ∧
          (addFocus poolOfFive ⟨6, 0, .medium, 0, 0⟩ 0).current_focuses.length = 5) :=
  c5_pool_size_bounded poolOfFive ⟨6, 0, .medium, 0, 0⟩ 9 0 (by decide) (by decide)

/-- C10: when no current focus carries the requested id, both `remove_focus`
and `update_focus_weight` return `False` and leave the whole state (focuses,
usage, history, timestamps) exactly unchanged. -/
theorem c10_missing_id_is_noop (s : AttentionState) (fid : ℕ) (nw now : ℚ)
    (h : ∀ g ∈ s.current_focuses, g.focus_id ≠ fid) :
    removeFocus s fid now = (s, false) ∧ updateFocusWeight s fid nw now = (s, false) := by
  constructor
  · simp [removeFocus, removeFirst_eq_none h]
  · simp [updateFocusWeight, updateFirst_eq_none h]

/-- Witness for C10 at a concrete input: the fresh pool has no focus with id
`3`, and both operations return the pool unchanged with `false`. -/
theorem c10_missing_id_is_noop_witness :
    removeFocus freshState 3 0 = (freshState, false)
    ∧ updateFocusWeight freshState 3 1 0 = (freshState, false) :=
  c10_missing_id_is_noop freshState 3 1 0 (by simp [freshState])

/-- Bounds on the priority-weight table. -/
theorem priorityWeight_bounds (p : AttentionPriority) :
    1/5 ≤ priorityWeight p ∧ priorityWeight p ≤ 1 := by
  cases p <;> norm_num [priorityWeight]

/-- C8: for a valid focus (weight in `[0,1]`, `last_updated` not in the future)
the relevance score lies in `[0,1]` and equals
`0.4·weight + 0.4·priorityWeight + 0.2·timeFactor` with
`timeFactor = max 0.1 (1 − secondsSinceLastUpdate/3600)` — the final
`min 1 ·` of the source is the identity there. -/
theorem c8_relevance_score_in_unit_interval (f : AttentionFocus) (now : ℚ)
    (h0 : 0 ≤ f.weight) (h1 : f.weight ≤ 1) (h2 : f.last_updated ≤ now) :
    0 ≤ getRelevanceScore f now ∧ getRelevanceScore f now ≤ 1 ∧
      getRelevanceScore f now =
        f.weight * (4/10) + priorityWeight f.priority * (4/10)
          + max (1/10) (1 - (now - f.last_updated) / 3600) * (2/10) := by
  obtain ⟨hp1, hp2⟩ := priorityWeight_bounds f.priority
  set t : ℚ := max (1/10) (1 - (now - f.last_updated) / 3600) with ht
  have ht1 : 1/10 ≤ t := le_max_left _ _
  have ht2 : t ≤ 1 := by
    have hd : 0 ≤ (now - f.last_updated) / 3600 :=
      div_nonneg (by linarith) (by norm_num)
    exact max_le (by norm_num) (by linarith)
  have hle : f.weight * (4/10) + priorityWeight f.priority * (4/10) + t * (2/10) ≤ 1 := by
    nlinarith
  have hge : 0 ≤ f.weight * (4/10) + priorityWeight f.priority * (4/10) + t * (2/10) := by
    nlinarith
  have heq : getRelevanceScore f now =
      f.weight * (4/10) + priorityWeight f.priority * (4/10) + t * (2/10) := by
    simp only [getRelevanceScore, ← ht]
    exact min_eq_right hle
  exact ⟨heq ▸ hge, heq ▸ hle, heq⟩

/-- Witness for C8 at a concrete input: a MEDIUM focus of weight `1` updated at
the current instant. -/
theorem c8_relevance_score_in_unit_interval_witness :
    (0:ℚ) ≤ 1 ∧
      (0 ≤ getRelevanceScore ⟨0, 1, .medium, 0, 0⟩ 0
        ∧ getRelevanceScore ⟨0, 1, .medium, 0, 0⟩ 0 ≤ 1
        ∧ getRelevanceScore ⟨0, 1, .medium, 0, 0⟩ 0 =
            1 * (4/10) + priorityWeight .medium * (4/10)
              + max (1/10) (1 - ((0:ℚ) - 0) / 3600) * (2/10)) :=
  ⟨by decide,
    c8_relevance_score_in_unit_interval ⟨0, 1, .medium, 0, 0⟩ 0
      (by decide) (by decide) (by decide)⟩

/-- C1: the claimed invariant `current_attention_usage = Σ weights` breaks when
`update_focus_weight` is called with a weight outside `[0,1]`: starting from a
fresh pool, adding a focus of weight `0.5` and then updating it to `2.0` leaves
the focus clamped at weight `1` but the usage at `2`, because the usage is
adjusted by the unclamped delta. -/
theorem c1_usage_desyncs_on_out_of_range_update :
    (updateFocusWeight (addFocus freshState ⟨7, 1/2, .medium, 0, 0⟩ 0) 7 2 0).1.current_attention_usage = 2
    ∧ weightSum (updateFocusWeight (addFocus freshState ⟨7, 1/2, .medium, 0, 0⟩ 0) 7 2 0).1 = 1
    ∧ (updateFocusWeight (addFocus freshState ⟨7, 1/2, .medium, 0, 0⟩ 0) 7 2 0).1.current_attention_usage
        ≠ weightSum (updateFocusWeight (addFocus freshState ⟨7, 1/2, .medium, 0, 0⟩ 0) 7 2 0).1 := by
  norm_num [addFocus, updateFocusWeight, updateFirst, updateWeight, rebalanceAttention,
    removeLowestPriorityFocus, freshState, weightSum, List.sum]

/-- C2: the claimed capacity invariant `Σ weights ≤ capacity + ε` fails on a
reachable state with all requested weights in `[0,1]`: on a fresh pool
(capacity `1`, threshold `0.1`), adding a focus of weight `0.1` and then one of
weight `1.0` leaves the total weight and usage at `1.1`, exceeding the capacity
by `0.1` — the rebalance is a no-op because the total reducible weight is `0`. -/
theorem c2_capacity_invariant_fails :
    weightSum (addFocus (addFocus freshState ⟨1, 1/10, .medium, 0, 0⟩ 0) ⟨2, 1, .medium, 0, 0⟩ 0) = 11/10
    ∧ (addFocus (addFocus freshState ⟨1, 1/10, .medium, 0, 0⟩ 0) ⟨2, 1, .medium, 0, 0⟩ 0).current_attention_usage = 11/10
    ∧ (addFocus (addFocus freshState ⟨1, 1/10, .medium, 0, 0⟩ 0) ⟨2, 1, .medium, 0, 0⟩ 0).total_attention_capacity + 1/20
        < weightSum (addFocus (addFocus freshState ⟨1, 1/10, .medium, 0, 0⟩ 0) ⟨2, 1, .medium, 0, 0⟩ 0) := by
  norm_num [addFocus, rebalanceAttention, rebalanceFocus, updateWeight,
    removeLowestPriorityFocus, freshState, weightSum, List.sum]

/-- C3 (Scenario A): with capacity `1.0`, threshold `0.1`, `max_concurrent = 5`,
sequentially adding four MEDIUM-priority focuses of weight `0.3` to a fresh pool
ends with usage exactly `1 ≤ 1.0` and every current focus weighing at least
`0.1` (the first three are rebalanced to `7/30`, the last keeps `0.3`). -/
theorem c3_scenario_four_foci :
    (addFocus (addFocus (addFocus (addFocus freshState ⟨1, 3/10, .medium, 0, 0⟩ 0)
        ⟨2, 3/10, .medium, 0, 0⟩ 0) ⟨3, 3/10, .medium, 0, 0⟩ 0) ⟨4, 3/10, .medium, 0, 0⟩ 0).current_attention_usage ≤ 1
    ∧ ∀ f ∈ (addFocus (addFocus (addFocus (addFocus freshState ⟨1, 3/10, .medium, 0, 0⟩ 0)
        ⟨2, 3/10, .medium, 0, 0⟩ 0) ⟨3, 3/10, .medium, 0, 0⟩ 0) ⟨4, 3/10, .medium, 0, 0⟩ 0).current_focuses,
        1/10 ≤ f.weight := by
  norm_num [addFocus, rebalanceAttention, rebalanceFocus, updateWeight,
    removeLowestPriorityFocus, freshState, weightSum, List.sum]

/-! ## Emotional model (`src/engine/models/emotional_state.py`) -/

/-- Basic emotion types (`EmotionType`). -/
inductive EmotionType
  | joy | sadness | anger | fear | surprise | disgust | anticipation | trust
  | curiosity | confusion | excitement | contentment | frustration | pride
  | guilt | shame
deriving DecidableEq, Repr

/-- Emotional state in the PAD model (`EmotionalState`).  The discrete emotion
dictionary is embedded as a partial map `EmotionType → Option ℚ`; `timestamp`,
`trigger_event`, `emotional_memories`, `mood_trend` and `metadata` play no role
in the claims and are omitted. -/
structure EmotionalState where
  valence : ℚ
  arousal : ℚ
  dominance : ℚ
  emotions : EmotionType → Option ℚ
  confidence : ℚ

/-- `EmotionalState.blend_with`: PAD dimensions and confidence are combined as
`self·(1−weight) + other·weight`; the emotion maps are unioned key-wise with the
same mixing, and entries whose blended intensity is not above `0.01` are
dropped. -/
def blendWith (s other : EmotionalState) (weight : ℚ) : EmotionalState :=
  { valence := s.valence * (1 - weight) + other.valence * weight
    arousal := s.arousal * (1 - weight) + other.arousal * weight
    dominance := s.dominance * (1 - weight) + other.dominance * weight
    emotions := fun e =>
      if (s.emotions e).isSome ∨ (other.emotions e).isSome then
        let blended_intensity :=
          (s.emotions e).getD 0 * (1 - weight) + (other.emotions e).getD 0 * weight
        if 1/100 < blended_intensity then some blended_intensity else none
      else none
    confidence := s.confidence * (1 - weight) + other.confidence * weight }

/-- Lowercasing of an embedded string (Python `str.lower`, restricted to the
ASCII range that the repository's trigger patterns use). -/
def lowerStr (s : List Char) : List Char := s.map Char.toLower

/-- Python `p in s` for strings: `p` occurs as a contiguous substring of `s`. -/
def leadsWith : List Char → List Char → Bool
  | [], _ => true
  | _ :: _, [] => false
  | a :: as, b :: bs => a = b && leadsWith as bs

def containsSub (p : List Char) : List Char → Bool
  | [] => p.isEmpty
  | c :: rest => leadsWith p (c :: rest) || containsSub p rest

/-- Python `str.split()`: split on runs of whitespace, dropping empty pieces. -/
def splitWsGo : List Char → List Char → List (List Char)
  | [], acc => if acc.isEmpty then [] else [acc.reverse]
  | c :: rest, acc =>
    if c.isWhitespace then
      if acc.isEmpty then splitWsGo rest [] else acc.reverse :: splitWsGo rest []
    else splitWsGo rest (c :: acc)

def splitWs (s : List Char) : List (List Char) := splitWsGo s []

/-- An emotional memory (`EmotionalMemory`); `timestamp` is replaced by an
explicit elapsed-days argument where needed, the other omitted fields play no
role in the claims. -/
structure EmotionalMemory where
  content : List Char
  strength : ℚ
  trigger_patterns : List (List Char)
  decay_rate : ℚ

/-- One iteration of the loop in `EmotionalMemory.is_relevant`: an exact
(case-insensitive) substring match raises the relevance to at least `0.8`, a
shared whitespace-delimited token to at least `0.4`, and otherwise the
relevance is left unchanged. -/
def relevanceStep (context_lower : List Char) (relevance : ℚ) (pattern : List Char) : ℚ :=
  if containsSub (lowerStr pattern) context_lower then max relevance (8/10)
  else if (splitWs (lowerStr pattern)).any (fun word => containsSub word context_lower)
    then max relevance (4/10)
  else relevance

/-- `EmotionalMemory.is_relevant`: `0` for a memory without trigger patterns,
otherwise the loop result multiplied by the memory's raw `strength` field. -/
def isRelevant (m : EmotionalMemory) (current_context : List Char) : ℚ :=
  if m.trigger_patterns.isEmpty then 0
  else (m.trigger_patterns.foldl (relevanceStep (lowerStr current_context)) 0) * m.strength

/-- `EmotionalMemory.get_current_strength`: exponential decay over the elapsed
days, floored at `0`. -/
def getCurrentStrength (m : EmotionalMemory) (days_passed : ℕ) : ℚ :=
  max 0 (m.strength * (1 - m.decay_rate) ^ days_passed)

/-- The per-pattern score named by the claim: `0.8` for a substring match,
else `0.4` for a shared token, else `0`. -/
def patternScore (context_lower pattern : List Char) : ℚ :=
  if containsSub (lowerStr pattern) context_lower then 8/10
  else if (splitWs (lowerStr pattern)).any (fun word => containsSub word context_lower)
    then 4/10
  else 0

/-- The relevance computation as the claim words it: the maximum per-pattern
score multiplied by the memory's *current decayed* strength. -/
def isRelevantClaimed (m : EmotionalMemory) (ctx : List Char) (days_passed : ℕ) : ℚ :=
  ((m.trigger_patterns.map (patternScore (lowerStr ctx))).foldr max 0)
    * getCurrentStrength m days_passed

theorem relevanceStep_eq (cl : List Char) {r : ℚ} (h : 0 ≤ r) (p : List Char) :
    relevanceStep cl r p = max r (patternScore cl p) := by
  unfold relevanceStep patternScore
  split_ifs <;> simp [max_eq_left h]

theorem foldr_max_nonneg (l : List ℚ) : 0 ≤ l.foldr max 0 := by
  induction l with
  | nil => simp
  | cons x t ih => simp only [List.foldr_cons]; exact le_trans ih (le_max_right _ _)

theorem relevanceLoop_eq (cl : List Char) :
    ∀ (l : List (List Char)) (r : ℚ), 0 ≤ r →
      l.foldl (relevanceStep cl) r = max r ((l.map (patternScore cl)).foldr max 0) := by
  intro l
  induction l with
  | nil => intro r h; simp [max_eq_left h]
  | cons p t ih =>
    intro r h
    have hstep : relevanceStep cl r p = max r (patternScore cl p) := relevanceStep_eq cl h p
    have hnn : 0 ≤ relevanceStep cl r p := by
      rw [hstep]; exact le_trans h (le_max_left _ _)
    simp only [List.foldl_cons, List.map_cons, List.foldr_cons]
    rw [ih _ hnn, hstep, max_assoc]

/-- C6 (amended): `is_relevant` multiplies the maximal per-pattern score by the
memory's *raw* `strength` field, not by the decayed strength; the two versions
agree exactly when zero days have elapsed (for a non-negative strength). -/
theorem c6_relevance_uses_raw_strength (m : EmotionalMemory) (ctx : List Char)
    (h : 0 ≤ m.strength) :
    isRelevant m ctx =
      ((m.trigger_patterns.map (patternScore (lowerStr ctx))).foldr max 0) * m.strength
    ∧ isRelevantClaimed m ctx 0 = isRelevant m ctx := by
  have hmain : isRelevant m ctx =
      ((m.trigger_patterns.map (patternScore (lowerStr ctx))).foldr max 0) * m.strength := by
    unfold isRelevant
    by_cases he : m.trigger_patterns.isEmpty
    · rw [if_pos he, List.isEmpty_iff.mp he]
      simp
    · rw [if_neg he, relevanceLoop_eq _ _ 0 le_rfl,
        max_eq_right (foldr_max_nonneg _)]
  refine ⟨hmain, ?_⟩
  unfold isRelevantClaimed getCurrentStrength
  rw [pow_zero, mul_one, max_eq_right h, hmain]

/-- A concrete emotional memory (strength `1`, decay rate `0.1`, single trigger
pattern `"cat"`) used for the C6 counterexample and witness. -/
def catMemory : EmotionalMemory :=
  { content := [], strength := 1, trigger_patterns := [['c', 'a', 't']], decay_rate := 1/10 }

/-- C6 counterexample: on the context `"cat"`, `is_relevant` returns
`0.8 · strength = 0.8`, while the claimed formula — the pattern score times the
decayed strength after 10 days — gives `0.8 · 0.9¹⁰`; the two differ, so
`is_relevant` does not use the decayed strength. -/
theorem c6_counterexample_decayed_strength :
    isRelevant catMemory ['c', 'a', 't'] = 8/10
    ∧ isRelevantClaimed catMemory ['c', 'a', 't'] 10 = 8/10 * (9/10)^10
    ∧ isRelevant catMemory ['c', 'a', 't'] ≠ isRelevantClaimed catMemory ['c', 'a', 't'] 10 := by
  have hc : containsSub (lowerStr ['c', 'a', 't']) (lowerStr ['c', 'a', 't']) = true := by
    decide
  have e1 : isRelevant catMemory ['c', 'a', 't'] = 8/10 := by
    norm_num [isRelevant, relevanceStep, catMemory, hc]
  have e2 : isRelevantClaimed catMemory ['c', 'a', 't'] 10 = 8/10 * (9/10)^10 := by
    norm_num [isRelevantClaimed, patternScore, getCurrentStrength, catMemory, hc]
  refine ⟨e1, e2, ?_⟩
  rw [e1, e2]; norm_num

/-- Witness for C6 at a concrete input: `catMemory` has non-negative strength. -/
theorem c6_relevance_uses_raw_strength_witness :
    (0:ℚ) ≤ 1 ∧
      (isRelevant catMemory ['c', 'a', 't'] =
        ((catMemory.trigger_patterns.map (patternScore (lowerStr ['c', 'a', 't']))).foldr max 0)
          * catMemory.strength
      ∧ isRelevantClaimed catMemory ['c', 'a', 't'] 0 = isRelevant catMemory ['c', 'a', 't']) :=
  ⟨by decide, c6_relevance_uses_raw_strength catMemory ['c', 'a', 't'] (by decide)⟩

/-- C7: `blend_with` mixes valence, arousal, dominance and confidence as
`a·(1−w) + b·w`, unions the emotion maps key-wise with the same mixing while
dropping entries whose blended intensity is `≤ 0.01`; and the concrete Scenario
C blend of `(0.8, 0.9, 0.7)` with `(−0.4, 0.8, 0.3)` at `w = 0.3` yields
valence `0.44`, arousal `0.87`, dominance `0.58` within `10⁻⁶`. -/
theorem c7_blend_formula (a b : EmotionalState) (w : ℚ) :
    (blendWith a b w).valence = a.valence * (1 - w) + b.valence * w
    ∧ (blendWith a b w).arousal = a.arousal * (1 - w) + b.arousal * w
    ∧ (blendWith a b w).dominance = a.dominance * (1 - w) + b.dominance * w
    ∧ (blendWith a b w).confidence = a.confidence * (1 - w) + b.confidence * w
    ∧ (∀ e, (blendWith a b w).emotions e =
        if ((a.emotions e).isSome ∨ (b.emotions e).isSome)
            ∧ 1/100 < (a.emotions e).getD 0 * (1 - w) + (b.emotions e).getD 0 * w
        then some ((a.emotions e).getD 0 * (1 - w) + (b.emotions e).getD 0 * w)
        else none)
    ∧ |(blendWith ⟨8/10, 9/10, 7/10, fun _ => none, 0⟩
          ⟨-4/10, 8/10, 3/10, fun _ => none, 0⟩ (3/10)).valence - 44/100| < 1/1000000
    ∧ |(blendWith ⟨8/10, 9/10, 7/10, fun _ => none, 0⟩
          ⟨-4/10, 8/10, 3/10, fun _ => none, 0⟩ (3/10)).arousal - 87/100| < 1/1000000
    ∧ |(blendWith ⟨8/10, 9/10, 7/10, fun _ => none, 0⟩
          ⟨-4/10, 8/10, 3/10, fun _ => none, 0⟩ (3/10)).dominance - 58/100| < 1/1000000 := by
  refine ⟨rfl, rfl, rfl, rfl, ?_, by norm_num [blendWith], by norm_num [blendWith],
    by norm_num [blendWith]⟩
  intro e
  simp only [blendWith]
  by_cases h1 : (a.emotions e).isSome ∨ (b.emotions e).isSome
  · rw [if_pos h1]
    by_cases h2 : (1:ℚ)/100 < (a.emotions e).getD 0 * (1 - w) + (b.emotions e).getD 0 * w
    · rw [if_pos h2, if_pos ⟨h1, h2⟩]
    · rw [if_neg h2, if_neg (fun hc => h2 hc.2)]
  · rw [if_neg h1, if_neg (fun hc => h1 hc.1)]

/-! ## Cognitive cycle controller (`src/engine/engine.py`) -/

/-- Cognitive state tracked by the working memory.  Modelled from the spec:
`src/engine/memory/working_memory.py` (the `CognitiveState` record and
`WorkingMemory.update_cognitive_state`) is not present under `src/`; per the
spec it carries the cycle counter, the confidence score and the stability flag
that `process_thought` sets on early stabilization. -/
structure CognitiveState where
  cycle_count : ℕ
  confidence_score : ℚ
  is_stable : Bool
deriving DecidableEq, Repr

/-- `MetacognitiveEngine._should_stabilize`: stop when neither the association
phase nor the introspection phase reported progress, or when the confidence
score exceeds `0.8`. -/
def shouldStabilize (cs : CognitiveState)
    (association_success introspection_success : Bool) : Bool :=
  if !association_success && !introspection_success then true
  else if decide ((8:ℚ)/10 < cs.confidence_score) then true
  else false

/-- The cognitive-cycle loop of `MetacognitiveEngine.process_thought`.  The
phase outcomes of cycle `c` (1-based) are supplied by the streams `assoc_ok`,
`intro_ok` and `conf` (the confidence score after that cycle's phases); each
iteration bumps `cycle_count`, runs the phases, and breaks with
`is_stable := true` as soon as `_should_stabilize` fires. -/
def runCycles (assoc_ok intro_ok : ℕ → Bool) (conf : ℕ → ℚ) :
    ℕ → CognitiveState → CognitiveState
  | 0, cs => cs
  | fuel + 1, cs =>
    let c := cs.cycle_count + 1
    let cs1 : CognitiveState :=
      { cycle_count := c, confidence_score := conf c, is_stable := cs.is_stable }
    if shouldStabilize cs1 (assoc_ok c) (intro_ok c) then { cs1 with is_stable := true }
    else runCycles assoc_ok intro_ok conf fuel cs1

/-- The cycle phase of `process_thought`: at most `max_cycles` cycles starting
from a cleared working memory (cycle 0, confidence 0, not stable). -/
def processThoughtCycles (max_cycles : ℕ) (assoc_ok intro_ok : ℕ → Bool)
    (conf : ℕ → ℚ) : CognitiveState :=
  runCycles assoc_ok intro_ok conf max_cycles ⟨0, 0, false⟩

/-- C4: the loop stops early exactly when (no association progress and no
introspection progress) or the confidence exceeds `0.8`; with both phases
reporting no progress on cycle 1 and `max_cycles = 3`, the loop runs exactly
one cycle and sets the stability flag; and when the stabilization predicate is
false on cycle 1, the loop does continue into cycle 2. -/
theorem c4_stabilization (assoc_ok intro_ok : ℕ → Bool) (conf : ℕ → ℚ) :
    (∀ (cs : CognitiveState) (a i : Bool),
        shouldStabilize cs a i = true ↔
          ((a = false ∧ i = false) ∨ (8:ℚ)/10 < cs.confidence_score))
    ∧ (assoc_ok 1 = false → intro_ok 1 = false →
        processThoughtCycles 3 assoc_ok intro_ok conf =
          { cycle_count := 1, confidence_score := conf 1, is_stable := true })
    ∧ (shouldStabilize ⟨1, conf 1, false⟩ (assoc_ok 1) (intro_ok 1) = false →
        2 ≤ (processThoughtCycles 3 assoc_ok intro_ok conf).cycle_count) := by
  refine ⟨?_, ?_, ?_⟩
  · intro cs a i
    cases a <;> cases i <;> simp [shouldStabilize]
  · intro h1 h2
    simp [processThoughtCycles, runCycles, shouldStabilize, h1, h2]
  · intro h
    simp only [processThoughtCycles, runCycles]
    norm_num
    rw [if_neg (by simp [h])]
    split_ifs <;> norm_num

/-- Witness for C4 at a concrete input: both phases report no progress on
cycle 1 and the predicate fires, so with `max_cycles = 3` the loop stops after
one cycle with the stability flag set. -/
theorem c4_stabilization_witness :
    processThoughtCycles 3 (fun _ => false) (fun _ => false) (fun _ => 1/2) =
      { cycle_count := 1, confidence_score := 1/2, is_stable := true } :=
  (c4_stabilization (fun _ => false) (fun _ => false) (fun _ => 1/2)).2.1 rfl rfl

/-! ## Response generation (`src/engine/processors/response_generator.py`) -/

/-- Intent labels produced by the sensory cortex. -/
inductive Intent
  | question | command | reflection | greeting | unknown
deriving DecidableEq, Repr

/-- The structured input held in working memory; only the intent matters for
the fallback response. -/
structure StructuredInput where
  intent : Intent
deriving DecidableEq, Repr

/-- The slice of working-memory content that `ResponseGenerator` consumes.
Modelled from the spec: `src/engine/memory/working_memory.py` is not present
under `src/`; per the spec the generator reads the structured input and the
retrieved-memory and generated-insight collections (only their emptiness and
sizes matter here). -/
structure WorkingMemoryContent where
  input : Option StructuredInput
  memories_count : ℕ
  insights_count : ℕ
deriving DecidableEq, Repr

/-- `ResponseGenerator._create_simple_response`: the templated fallback summary
built from the intent and the memory/insight counts. -/
def createSimpleResponse (wm : WorkingMemoryContent) : String :=
  match wm.input with
  | none => "I processed your input, but encountered an issue. Please try again."
  | some input_data =>
    let ack : String :=
      match input_data.intent with
      | .question => "I understand you\x27re asking about something."
      | .command => "I see you\x27d like me to do something."
      | .reflection => "Thank you for sharing your thoughts."
      | _ => "I\x27ve processed your input."
    let parts1 : List String :=
      if 0 < wm.memories_count then
        [ack, "I found " ++ toString wm.memories_count ++ " relevant memories that relate to this."]
      else [ack]
    let parts2 : List String :=
      if 0 < wm.insights_count then
        parts1 ++ ["This led me to " ++ toString wm.insights_count ++ " new insights."]
      else parts1
    String.intercalate " " (parts2 ++ ["My cognitive processing is currently in basic mode."])

/-- `WorkingMemory.is_ready_for_response`.  Modelled from the spec:
`working_memory.py` is not present under `src/`; per the spec the pipeline is
ready once the structured input has been set. -/
def isReadyForResponse (wm : WorkingMemoryContent) : Bool :=
  wm.input.isSome

/-- `ResponseGenerator.generate_response`.  The Gemini interaction is embedded
as `llm_result : Option String`: `some text` models a successful
`model.generate_content` call, `none` models the call raising (the `except`
branch); `model_available` models whether `self.model` was configured. -/
def generateResponse (wm : WorkingMemoryContent) (model_available : Bool)
    (llm_result : Option String) : String :=
  if !(isReadyForResponse wm) then
    "I need more information to provide a meaningful response."
  else if !model_available then createSimpleResponse wm
  else
    match llm_result with
    | some text => text.trim
    | none => createSimpleResponse wm

/-- C9: whenever the structured input is present, `generate_response` returns a
string in every case — in particular, if the LLM model is unavailable, or if
its call raises, the result is exactly the templated fallback summary
`_create_simple_response` instead of a propagated error. -/
theorem c9_fallback_on_llm_failure (wm : WorkingMemoryContent) (llm : Option String)
    (h : wm.input.isSome = true) :
    generateResponse wm false llm = createSimpleResponse wm
    ∧ generateResponse wm true none = createSimpleResponse wm := by
  unfold generateResponse isReadyForResponse
  rw [h]
  exact ⟨rfl, rfl⟩

/-- Witness for C9 at a concrete input: a working memory holding a QUESTION
input with two memories and one insight. -/
theorem c9_fallback_on_llm_failure_witness :
    generateResponse ⟨some ⟨Intent.question⟩, 2, 1⟩ false none =
      createSimpleResponse ⟨some ⟨Intent.question⟩, 2, 1⟩
    ∧ generateResponse ⟨some ⟨Intent.question⟩, 2, 1⟩ true none =
      createSimpleResponse ⟨some ⟨Intent.question⟩, 2, 1⟩ :=
  c9_fallback_on_llm_failure ⟨some ⟨Intent.question⟩, 2, 1⟩ none rfl

end Metacog
